import Mathlib

/-!
Verification development for the jira-audit repository (a Jira Cloud
auditing CLI).  The Python sources under src/jira_audit/ are shallowly
embedded below: JSON payloads become the inductive `JVal`, the per-profile
SQLite database becomes the record `DB` with list-of-row tables, and the
stateful command loops become explicit state-passing functions with a fuel
parameter for the unbounded `while True` loops.
-/

/-- JSON values as produced by `response.json()` / consumed by `dict.get`.
Python `None` is `jnull`; objects keep insertion order as an association
list (JSON objects with duplicate keys are outside the modelled domain). -/
inductive JVal where
  | jnull
  | jbool (b : Bool)
  | jnum (n : Int)
  | jstr (s : String)
  | jarr (xs : List JVal)
  | jobj (fields : List (String × JVal))

open JVal

/-- Python truthiness of a JSON value (`if not issue_key`, `x or {}`, ...). -/
def truthy : JVal → Bool
  | jnull => false
  | jbool b => b
  | jnum n => n != 0
  | jstr s => s != ""
  | jarr xs => !xs.isEmpty
  | jobj fs => !fs.isEmpty

/-- Python `a or b` on JSON values: `a` if truthy, else `b`. -/
def pyOr (a b : JVal) : JVal := if truthy a then a else b

/-- Association-list lookup used by `getJ`/`getJD` below. -/
def fieldsGet : List (String × JVal) → String → Option JVal
  | [], _ => none
  | (k, v) :: rest, key => if k = key then some v else fieldsGet rest key

/-- Python `d.get(key)` (default `None`).  Calling `.get` on a non-dict
raises in Python; that is outside the modelled domain (we return `jnull`). -/
def getJ (v : JVal) (key : String) : JVal :=
  match v with
  | jobj fs => (fieldsGet fs key).getD jnull
  | _ => jnull

/-- Python `d.get(key, default)`. -/
def getJD (v : JVal) (key : String) (dflt : JVal) : JVal :=
  match v with
  | jobj fs => (fieldsGet fs key).getD dflt
  | _ => dflt

/-- View a JSON value as the list Python would iterate over; non-lists are
outside the modelled domain (Python would raise on iteration). -/
def jlist : JVal → List JVal
  | jarr xs => xs
  | _ => []

/-- View a JSON value as the integer Python would compare with; used for the
`total` entry of a search response.  A non-integer `total` would raise in
Python's `start_at >= total` and is outside the modelled domain. -/
def jint : JVal → Int
  | jnum n => n
  | _ => 0

/-- Equality of two stored SQLite scalar values.  Only scalars ever reach
the database: binding a list/dict parameter raises sqlite3.InterfaceError
in Python, so compound values are outside the modelled domain. -/
def sqlEq : JVal → JVal → Bool
  | jnull, jnull => true
  | jbool a, jbool b => a == b
  | jnum a, jnum b => a == b
  | jstr a, jstr b => a == b
  | _, _ => false

/-- SQLite `COALESCE(x, '')` as used by the dedupe index. -/
def coalesceEmpty (v : JVal) : JVal :=
  match v with
  | jnull => jstr ""
  | w => w

/-- Scalar equality as the unique index sees one column: SQL `NULL` compares
distinct from everything (including `NULL`) in a unique index. -/
def sqlIndexEq (a b : JVal) : Bool :=
  match a, b with
  | jnull, _ => false
  | _, jnull => false
  | a, b => sqlEq a b

/-! ## db.py — the per-profile SQLite cache -/

/-- One row of the `issues` table (db.py `initialize_db`). -/
structure IssueRow where
  issue_key : JVal
  issue_id : JVal
  issue_type : JVal
  created_at : JVal
  updated_at : JVal
  resolutiondate : JVal
  status_name : JVal
  assignee_display : JVal
  /-- `raw_json` holds `json.dumps(issue)`; the serialized string is
  modelled by the payload value that determines it. -/
  raw_json : JVal

/-- One row of the `changelog_events` table (the autoincrement `id` column
is modelled by list position; no operation reads it). -/
structure EventRow where
  issue_key : JVal
  changed_at : JVal
  field : JVal
  from_value : JVal
  to_value : JVal

/-- One row of the `sync_runs` table. -/
structure SyncRunRow where
  id : Nat
  started_at : String
  finished_at : Option String
  issues_count : Int
  events_count : Int
  error : Option String

/-- The three tables of one profile's database (`initialize_db` creates
them and the dedupe index; it inserts no rows). -/
structure DB where
  issues : List IssueRow
  events : List EventRow
  syncRuns : List SyncRunRow

def DB.empty : DB := ⟨[], [], []⟩

/-- The derived columns db.py `upsert_issue` computes from an issue payload:
`fields = issue.get("fields") or {}`, `assignee = fields.get("assignee") or {}`,
then the nine bound values of the INSERT. -/
def derivedRow (issue : JVal) : IssueRow :=
  let fields := pyOr (getJ issue "fields") (jobj [])
  let assignee := pyOr (getJ fields "assignee") (jobj [])
  { issue_key := getJ issue "key"
    issue_id := getJ issue "id"
    issue_type := getJ (pyOr (getJ fields "issuetype") (jobj [])) "name"
    created_at := getJ fields "created"
    updated_at := getJ fields "updated"
    resolutiondate := getJ fields "resolutiondate"
    status_name := getJ (pyOr (getJ fields "status") (jobj [])) "name"
    assignee_display := getJ assignee "displayName"
    raw_json := issue }

/-- db.py `upsert_issue`: INSERT ... ON CONFLICT(issue_key) DO UPDATE SET
every derived column and the raw payload.  The conflict fires only when a
stored row has an equal non-NULL primary key (SQLite permits NULL TEXT
primary keys and never treats NULL as conflicting). -/
def upsert_issue (db : DB) (issue : JVal) : DB :=
  let row := derivedRow issue
  if db.issues.any (fun r => sqlIndexEq r.issue_key row.issue_key) then
    { db with issues :=
        db.issues.map (fun r =>
          if sqlIndexEq r.issue_key row.issue_key then row else r) }
  else
    { db with issues := db.issues ++ [row] }

/-- The dedupe unique index `ux_changelog_dedupe` on
(issue_key, changed_at, field, COALESCE(from_value,''), COALESCE(to_value,'')):
a candidate row collides with a stored row iff the five indexed expressions
agree, with SQL NULL distinct from everything in the raw columns. -/
def dedupeHit (r : EventRow) (issue_key changed_at field from_value to_value : JVal) : Bool :=
  sqlIndexEq r.issue_key issue_key &&
  sqlIndexEq r.changed_at changed_at &&
  sqlIndexEq r.field field &&
  sqlEq (coalesceEmpty r.from_value) (coalesceEmpty from_value) &&
  sqlEq (coalesceEmpty r.to_value) (coalesceEmpty to_value)

/-- db.py `insert_changelog_event`: INSERT one row; an IntegrityError from
the dedupe unique index is caught and discarded (`except ... pass`), so a
duplicate insert is a no-op, not an error. -/
def insert_changelog_event (db : DB)
    (issue_key changed_at field from_value to_value : JVal) : DB :=
  if db.events.any (fun r => dedupeHit r issue_key changed_at field from_value to_value) then
    db
  else
    { db with events := db.events ++
        [⟨issue_key, changed_at, field, from_value, to_value⟩] }

/-- The next AUTOINCREMENT id of `sync_runs`: one more than the largest id
ever used (no row of this table is ever deleted). -/
def nextRunId (db : DB) : Nat :=
  (db.syncRuns.map (fun r => r.id)).foldr max 0 + 1

/-- db.py `insert_sync_run_start`: INSERT (started_at, NULL, 0, 0, NULL)
and return `cur.lastrowid`. -/
def insert_sync_run_start (db : DB) (started_at : String) : DB × Nat :=
  let rid := nextRunId db
  ({ db with syncRuns := db.syncRuns ++ [⟨rid, started_at, none, 0, 0, none⟩] }, rid)

/-- db.py `finish_sync_run`: UPDATE sync_runs SET finished_at, issues_count,
events_count, error WHERE id = sync_id. -/
def finish_sync_run (db : DB) (sync_id : Nat) (finished_at : String)
    (issues : Int) (events : Int) (error : Option String) : DB :=
  { db with syncRuns :=
      db.syncRuns.map (fun r =>
        if r.id = sync_id then
          { r with finished_at := some finished_at, issues_count := issues,
                   events_count := events, error := error }
        else r) }

/-! ## cli.py `sync` — the pagination and changelog-walk loop

The command's preamble (profile/token loading, `initialize_db`, JQL
construction) performs no row-level database writes; the loop below is the
whole data path.  The Jira side is abstracted as `server : Nat → JVal`, the
parsed JSON body a successful `search_issues` call returns for a given
`startAt` (the network/retry layer is modelled separately below).
`requests` records the `startAt` of every search request issued, in order;
`stop` records why the loop ended (`none` only if the fuel ran out, a
modelling artifact for the source's unbounded `while True`). -/

/-- Why the sync loop stopped. -/
inductive StopReason where
  | emptyPage
  | reachedTotal
  | limitReached
deriving DecidableEq

/-- The sync command's mutable state: the cache database plus the loop
variables `start_at`, `total_seen`, `total_events` of cli.py `sync`. -/
structure SyncState where
  db : DB
  startAt : Nat
  totalSeen : Nat
  totalEvents : Nat
  requests : List Nat
  stop : Option StopReason

/-- The initial loop state: `start_at = 0`, `total_seen = 0`,
`total_events = 0`, over a given database. -/
def syncInit (db : DB) : SyncState :=
  { db := db, startAt := 0, totalSeen := 0, totalEvents := 0,
    requests := [], stop := none }

/-- `issues = data.get("issues", []) or []` followed by iteration. -/
def pageIssues (data : JVal) : List JVal :=
  jlist (pyOr (getJD data "issues" (jarr [])) (jarr []))

/-- `total = data.get("total", 0)` as the integer compared with `start_at`. -/
def pageTotal (data : JVal) : Int :=
  jint (getJD data "total" (jnum 0))

/-- Python `field not in ("status", "Flagged", "assignee")`, negated: a
JSON value equals one of those strings iff it is that string. -/
def trackedField (v : JVal) : Bool :=
  match v with
  | jstr s => s == "status" || s == "Flagged" || s == "assignee"
  | _ => false

/-- The body of sync's innermost loop (`for item in items`): skip items
whose `field` is untracked, otherwise insert one changelog event keyed by
the history timestamp, the field, `fromString` and `toString`, and count
it (the counter grows even when the insert dedupes to a no-op).  Returns
the database and the events-count increment. -/
def processItem (db : DB) (issue_key changed_at : JVal) (item : JVal) : DB × Nat :=
  let field := getJ item "field"
  if trackedField field then
    (insert_changelog_event db issue_key changed_at field
      (getJ item "fromString") (getJ item "toString"), 1)
  else
    (db, 0)

/-- `for item in items` over one history's items, accumulating the
events-count increments. -/
def processItems (db : DB) (issue_key changed_at : JVal) :
    List JVal → DB × Nat
  | [] => (db, 0)
  | item :: rest =>
    let (db1, n1) := processItem db issue_key changed_at item
    let (db2, n2) := processItems db1 issue_key changed_at rest
    (db2, n1 + n2)

/-- One history `h`: `changed_at = h.get("created")`,
`items = h.get("items", []) or []`, then the item loop. -/
def processHistory (db : DB) (issue_key : JVal) (h : JVal) : DB × Nat :=
  let changed_at := getJ h "created"
  let items := jlist (pyOr (getJD h "items" (jarr [])) (jarr []))
  processItems db issue_key changed_at items

/-- `for h in histories` over one issue's changelog, accumulating counts. -/
def processHistories (db : DB) (issue_key : JVal) :
    List JVal → DB × Nat
  | [] => (db, 0)
  | h :: rest =>
    let (db1, n1) := processHistory db issue_key h
    let (db2, n2) := processHistories db1 issue_key rest
    (db2, n1 + n2)

/-- The changelog walk of one issue: `changelog = issue.get("changelog") or {}`,
`histories = changelog.get("histories", []) or []`, then the history loop. -/
def processChangelog (db : DB) (issue_key : JVal) (issue : JVal) : DB × Nat :=
  let changelog := pyOr (getJ issue "changelog") (jobj [])
  let histories := jlist (pyOr (getJD changelog "histories" (jarr [])) (jarr []))
  processHistories db issue_key histories

/-- The `for issue in issues` body of cli.py `sync`: skip issues with a
falsy `key`; otherwise upsert the issue, count it, walk its changelog, and
— when a truthy `limit` has been reached by `total_seen` — return early
(the Boolean result is `true` exactly when the Python `return` fired). -/
def processIssues (limit : Int) (issues : List JVal) (st : SyncState) :
    SyncState × Bool :=
  match issues with
  | [] => (st, false)
  | issue :: rest =>
    let issue_key := getJ issue "key"
    if !truthy issue_key then
      processIssues limit rest st
    else
      let db1 := upsert_issue st.db issue
      let seen := st.totalSeen + 1
      let (db2, ev) := processChangelog db1 issue_key issue
      let st1 := { st with db := db2, totalSeen := seen,
                           totalEvents := st.totalEvents + ev }
      if limit ≠ 0 ∧ (seen : Int) ≥ limit then
        (st1, true)
      else
        processIssues limit rest st1

/-- cli.py `sync`'s `while True` loop (page size fixed at 100 by the
source): request the page at `start_at`; break on an empty page; process
its issues (possibly returning early on `limit`); advance `start_at` by
the page length and break once it reaches the reported `total`. -/
def syncLoop (server : Nat → JVal) (limit : Int) :
    Nat → SyncState → SyncState
  | 0, st => st
  | fuel + 1, st =>
    let data := server st.startAt
    let st0 := { st with requests := st.requests ++ [st.startAt] }
    let issues := pageIssues data
    if issues.isEmpty then
      { st0 with stop := some .emptyPage }
    else
      match processIssues limit issues st0 with
      | (st1, true) => { st1 with stop := some .limitReached }
      | (st1, false) =>
        let st2 := { st1 with startAt := st1.startAt + issues.length }
        if (st2.startAt : Int) ≥ pageTotal data then
          { st2 with stop := some .reachedTotal }
        else
          syncLoop server limit fuel st2

/-- A whole `sync` invocation's data path over a starting database:
run the loop from the initial state. -/
def syncRun (server : Nat → JVal) (limit : Int) (fuel : Nat) (db : DB) :
    SyncState :=
  syncLoop server limit fuel (syncInit db)

/-! ## jira_client.py `search_issues` — retry and backoff

An HTTP exchange is abstracted as `responses : Nat → HttpResp`, the
response to the n-th request the loop issues.  Sleep durations are exact
rationals (the source's floats 1.0, 2.0, ..., 30.0 and the parsed
Retry-After value are all exactly representable).  The unbounded retry
loop again takes fuel; `outcome = none` means the fuel ran out. -/

/-- An HTTP response as jira_client.py inspects it: the status code, the
Retry-After header (already parsed by `float(...)`; `none` covers an
absent or falsy-empty header, and a non-numeric header — a `float`
ValueError in Python — is outside the modelled domain), and the parsed
JSON body. -/
structure HttpResp where
  status : Nat
  retryAfter : Option ℚ
  body : JVal

/-- The query parameters of one search request: `jql`, `startAt`,
`maxResults`, the comma-joined `fields`, and `expand` present iff truthy. -/
structure SearchParams where
  jql : String
  startAt : Nat
  maxResults : Nat
  fields : String
  expand : Option String
deriving DecidableEq

/-- jira_client.py builds `params` once before the loop; the `expand` key
is added only when the argument is truthy (a non-empty string). -/
def mkParams (jql : String) (fields : List String) (expand : Option String)
    (start_at max_results : Nat) : SearchParams :=
  { jql := jql, startAt := start_at, maxResults := max_results,
    fields := String.intercalate "," fields,
    expand := match expand with
      | some e => if e = "" then none else some e
      | none => none }

/-- The observable trace of one `search_issues` call: every request issued
(each carrying its query parameters), every `time.sleep` duration, and the
final outcome — `Except.error status` models the `HTTPStatusError` raised
by `raise_for_status()` (httpx raises for any non-2xx status), and
`Except.ok body` the parsed JSON returned unmodified. -/
structure SearchTrace where
  requests : List SearchParams
  sleeps : List ℚ
  outcome : Option (Except Nat JVal)

/-- jira_client.py's `while True` retry loop, starting from `backoff = 1.0`:
on 429/503 sleep the Retry-After value if the header is truthy, else sleep
the current backoff and double it capped at 30 (`min(backoff * 2, 30)`),
then retry the identical request; otherwise `raise_for_status()` and
return the parsed body. -/
def searchLoop (responses : Nat → HttpResp) (params : SearchParams) :
    Nat → Nat → ℚ → List SearchParams → List ℚ → SearchTrace
  | 0, _, _, reqs, sleeps => ⟨reqs, sleeps, none⟩
  | fuel + 1, attempt, backoff, reqs, sleeps =>
    let r := responses attempt
    let reqs1 := reqs ++ [params]
    if r.status = 429 ∨ r.status = 503 then
      match r.retryAfter with
      | some q =>
        searchLoop responses params fuel (attempt + 1) backoff reqs1 (sleeps ++ [q])
      | none =>
        searchLoop responses params fuel (attempt + 1) (min (backoff * 2) 30)
          reqs1 (sleeps ++ [backoff])
    else if 200 ≤ r.status ∧ r.status < 300 then
      ⟨reqs1, sleeps, some (.ok r.body)⟩
    else
      ⟨reqs1, sleeps, some (.error r.status)⟩

/-- jira_client.py `search_issues`: build the parameters once, then run the
retry loop with initial backoff 1.0. -/
def search_issues (responses : Nat → HttpResp) (jql : String)
    (fields : List String) (expand : Option String)
    (start_at max_results : Nat) (fuel : Nat) : SearchTrace :=
  searchLoop responses (mkParams jql fields expand start_at max_results)
    fuel 0 1 [] []

/-! ## cli.py `whoami` — identity-check response handling -/

/-- What `whoami` does with the `/rest/api/3/myself` response: the printed
identity fields are the `r.json()` lookups the source performs.  On a
status ≥ 400 it prints the failure status and body text and raises
`typer.Exit(code=1)`; on success it prints `data.get("displayName")` and
`data.get("accountID")` (note the source's capitalisation of that key). -/
structure WhoamiOutcome where
  exitCode : Nat
  printedStatus : Option Nat
  printedBodyText : Option String
  printedDisplay : Option JVal
  printedAccount : Option JVal

/-- The response-handling branch of cli.py `whoami` (lines 78-90), over a
response with status code, raw text, and parsed JSON body. -/
def whoami_handle (status : Nat) (text : String) (body : JVal) : WhoamiOutcome :=
  if status ≥ 400 then
    { exitCode := 1, printedStatus := some status, printedBodyText := some text,
      printedDisplay := none, printedAccount := none }
  else
    { exitCode := 0, printedStatus := none, printedBodyText := none,
      printedDisplay := some (getJ body "displayName"),
      printedAccount := some (getJ body "accountID") }

/-! ## config.py — the profile store

The clients directory is modelled as an association list from file stem
(the profile name) to the stored record; YAML serialization of `asdict`
is faithful for the field types involved (strings, bools, lists, string
maps, None), so the file `<name>.yaml` is modelled by the record it
encodes.  `Path.home()` is threaded as an explicit `home` string. -/

/-- config.py `ClientProfile`, with the dataclass field defaults.  The
`status_rollups` mapping is an insertion-ordered association list. -/
structure ClientProfile where
  name : String
  jira_base_url : String
  email : String
  project_key : String
  timezone : String
  business_hours_start : String := "09:00"
  business_hours_end : String := "17:00"
  holidays : Option (List String) := none
  status_rollups : Option (List (String × List String)) := none
  use_flagged : Bool := true
  flagged_value : String := "Impediment"
  blocked_status_names : Option (List String) := none
deriving DecidableEq

/-- The clients directory: profile file stem → stored record. -/
def ProfileStore := List (String × ClientProfile)

/-- config.py `profile_path`: `CLIENTS_DIR / f"{profile_name}.yaml"` with
`CLIENTS_DIR = Path.home() / ".jira-audit" / "clients"`. -/
def profile_path (home : String) (profile_name : String) : String :=
  home ++ "/.jira-audit/clients/" ++ profile_name ++ ".yaml"

/-- Write a file into the store, overwriting an existing one of the same
stem. -/
def storeWrite : ProfileStore → String → ClientProfile → ProfileStore
  | [], stem, p => [(stem, p)]
  | (k, v) :: rest, stem, p =>
    if k = stem then (k, p) :: rest else (k, v) :: storeWrite rest stem p

/-- Read a file from the store. -/
def storeRead : ProfileStore → String → Option ClientProfile
  | [], _ => none
  | (k, v) :: rest, stem => if k = stem then some v else storeRead rest stem

/-- config.py `save_profile`: dump `asdict(profile)` to
`<clients-dir>/<profile.name>.yaml`, overwriting. -/
def save_profile (store : ProfileStore) (profile : ClientProfile) : ProfileStore :=
  storeWrite store profile.name profile

/-- config.py `load_profile`: raise FileNotFoundError with the source's
f-string when the file does not exist, else parse it back into a
`ClientProfile`. -/
def load_profile (home : String) (store : ProfileStore)
    (profile_name : String) : Except String ClientProfile :=
  match storeRead store profile_name with
  | none => .error ("Profile '" ++ profile_name ++ "' not found at " ++
      profile_path home profile_name ++
      ". Run: python -m jira-audit.cli configure " ++ profile_name)
  | some p => .ok p

/-! ## Concrete fixtures used by the scenario theorems and witnesses -/

/-- Python `str` / `None` arguments as the SQL-bound values they become. -/
def optStr : Option String → JVal
  | none => jnull
  | some s => jstr s

/-- A minimal issue payload with a distinct truthy key and no changelog. -/
def mkIssue (i : Nat) : JVal := jobj [("key", jstr ("K" ++ toString i))]

/-- A Jira search backend reporting `total = 150` that serves pages of at
most 100 issues: `startAt = 0` yields 100 issues, `startAt = 100` the
remaining 50. -/
def server150 (startAt : Nat) : JVal :=
  jobj [("issues", jarr ((List.range' startAt (min 100 (150 - startAt))).map mkIssue)),
        ("total", jnum 150)]

/-- A backend reporting `total = 250`, first page 100 issues. -/
def server250 (startAt : Nat) : JVal :=
  jobj [("issues", jarr ((List.range' startAt (min 100 (250 - startAt))).map mkIssue)),
        ("total", jnum 250)]

/-- A backend whose every page is empty. -/
def serverEmpty (_startAt : Nat) : JVal :=
  jobj [("issues", jarr []), ("total", jnum 0)]

/-- A backend with a single one-issue page. -/
def serverOne (_startAt : Nat) : JVal :=
  jobj [("issues", jarr [mkIssue 0]), ("total", jnum 1)]

/-- A successful search body. -/
def okBody : JVal := jobj [("issues", jarr []), ("total", jnum 0)]

/-- First response 429 with `Retry-After: 2`, then success. -/
def resp429 : Nat → HttpResp :=
  fun i => if i = 0 then ⟨429, some 2, jnull⟩ else ⟨200, none, okBody⟩

/-- Two header-less 503s, then success. -/
def resp503x2 : Nat → HttpResp :=
  fun i => if i < 2 then ⟨503, none, jnull⟩ else ⟨200, none, okBody⟩

/-- Seven header-less 503s, then success (long enough to hit the 30 s cap). -/
def resp503x7 : Nat → HttpResp :=
  fun i => if i < 7 then ⟨503, none, jnull⟩ else ⟨200, none, okBody⟩

/-- Every request fails with 404. -/
def resp404 : Nat → HttpResp := fun _ => ⟨404, none, jstr "not found"⟩

/-- Every request succeeds. -/
def respOk : Nat → HttpResp := fun _ => ⟨200, none, okBody⟩

/-- A `/rest/api/3/myself` success body as Jira Cloud returns it: the
account identifier is under the key `accountId`. -/
def myselfBody : JVal :=
  jobj [("displayName", jstr "Jane Doe"),
        ("accountId", jstr "5b10ac8d82e05b22cc7d4ef5")]

/-- The profile record the `configure` command builds (rollup labels with
default empty lists, empty holiday and blocked-status lists). -/
def acmeProfile : ClientProfile :=
  { name := "acme", jira_base_url := "https://acme.atlassian.net",
    email := "ops@acme.test", project_key := "ABC",
    timezone := "America/New_York",
    holidays := some [],
    status_rollups := some [("Backlog", []), ("InProgress", []),
      ("Review", []), ("Blocked", []), ("Done", [])],
    blocked_status_names := some [] }

/-! # Theorems -/

/-- Scalar-column index comparison of two TEXT values. -/
theorem sqlIndexEq_jstr (a b : String) : sqlIndexEq (jstr a) (jstr b) = (a == b) := rfl

/-- Scalar equality of two TEXT values. -/
theorem sqlEq_jstr (a b : String) : sqlEq (jstr a) (jstr b) = (a == b) := rfl

/-- `COALESCE` over a bound `str | None` argument always yields TEXT. -/
theorem coalesceEmpty_optStr (o : Option String) :
    coalesceEmpty (optStr o) = jstr (o.getD "") := by
  cases o <;> rfl

/-- Inserting an event into the empty database stores exactly that row. -/
theorem insert_changelog_event_first (a b c d e : JVal) :
    insert_changelog_event DB.empty a b c d e = ⟨[], [⟨a, b, c, d, e⟩], []⟩ := rfl

/-- Inserting an event into a one-event database keeps one row on an index
hit and appends otherwise. -/
theorem insert_changelog_event_second (r : EventRow) (a b c d e : JVal) :
    insert_changelog_event ⟨[], [r], []⟩ a b c d e =
      if dedupeHit r a b c d e then ⟨[], [r], []⟩
      else ⟨[], [r, ⟨a, b, c, d, e⟩], []⟩ := by
  by_cases h : dedupeHit r a b c d e = true <;>
    simp [insert_changelog_event, h]

/-- Unfolded dedupe comparison against a stored row with TEXT key columns. -/
theorem dedupeHit_str_row (k c f : String) (fv tv : JVal) (k2 c2 f2 fv2 tv2 : JVal) :
    dedupeHit ⟨jstr k, jstr c, jstr f, fv, tv⟩ k2 c2 f2 fv2 tv2 =
      (sqlIndexEq (jstr k) k2 && sqlIndexEq (jstr c) c2 && sqlIndexEq (jstr f) f2 &&
       sqlEq (coalesceEmpty fv) (coalesceEmpty fv2) &&
       sqlEq (coalesceEmpty tv) (coalesceEmpty tv2)) := rfl

/-- C2: `insert_changelog_event` is idempotent on event identity: two
identical inserts (same issue_key, changed_at, field, from_value,
to_value, with the Python-string arguments of its signature) leave exactly
one stored row — the uniqueness violation is absorbed as a no-op — while a
second insert whose `to_value` differs (after NULL-to-empty-string
normalization) leaves two rows; a NULL `from_value` and an empty-string
`from_value` count as the same identity. -/
theorem insert_changelog_event_idempotent (k c f : String) (fv tv : Option String) :
    ((insert_changelog_event (insert_changelog_event DB.empty
        (jstr k) (jstr c) (jstr f) (optStr fv) (optStr tv))
        (jstr k) (jstr c) (jstr f) (optStr fv) (optStr tv)).events.length = 1)
    ∧ (∀ tv' : Option String,
        coalesceEmpty (optStr tv') ≠ coalesceEmpty (optStr tv) →
        (insert_changelog_event (insert_changelog_event DB.empty
          (jstr k) (jstr c) (jstr f) (optStr fv) (optStr tv))
          (jstr k) (jstr c) (jstr f) (optStr fv) (optStr tv')).events.length = 2)
    ∧ ((insert_changelog_event (insert_changelog_event DB.empty
        (jstr k) (jstr c) (jstr f) jnull (optStr tv))
        (jstr k) (jstr c) (jstr f) (jstr "") (optStr tv)).events.length = 1) := by
  refine ⟨?_, ?_, ?_⟩
  · rw [insert_changelog_event_first, insert_changelog_event_second]
    rw [dedupeHit_str_row]
    simp [sqlIndexEq_jstr, sqlEq_jstr, coalesceEmpty_optStr]
  · intro tv' hne
    rw [insert_changelog_event_first, insert_changelog_event_second]
    rw [dedupeHit_str_row]
    rw [coalesceEmpty_optStr, coalesceEmpty_optStr] at hne
    have hne2 : (tv'.getD "" == tv.getD "") = false := by
      simp only [JVal.jstr.injEq, ne_eq] at hne
      simp [hne]
    simp [sqlIndexEq_jstr, sqlEq_jstr, coalesceEmpty_optStr, hne2]
    rw [if_neg]
    · rfl
    · intro hcontra
      exact hne (congrArg jstr hcontra.symm)
  · rw [insert_changelog_event_first, insert_changelog_event_second]
    rw [dedupeHit_str_row]
    have h1 : coalesceEmpty jnull = jstr "" := rfl
    have h2 : coalesceEmpty (jstr "") = jstr "" := rfl
    rw [h1, h2, coalesceEmpty_optStr]
    simp [sqlIndexEq_jstr, sqlEq_jstr]

/-- Witness for C2 at a concrete event identity: a repeated
(ABC-1, t, status, NULL, "Done") insert keeps one row, and a second insert
with to_value "Open" instead of "Done" makes two rows. -/
theorem insert_changelog_event_idempotent_witness :
    ((insert_changelog_event (insert_changelog_event DB.empty
        (jstr "ABC-1") (jstr "2024-05-01T10:00:00.000+0000") (jstr "status")
        (optStr none) (optStr (some "Done")))
        (jstr "ABC-1") (jstr "2024-05-01T10:00:00.000+0000") (jstr "status")
        (optStr none) (optStr (some "Done"))).events.length = 1)
    ∧ ((insert_changelog_event (insert_changelog_event DB.empty
        (jstr "ABC-1") (jstr "2024-05-01T10:00:00.000+0000") (jstr "status")
        (optStr none) (optStr (some "Done")))
        (jstr "ABC-1") (jstr "2024-05-01T10:00:00.000+0000") (jstr "status")
        (optStr none) (optStr (some "Open"))).events.length = 2) :=
  ⟨(insert_changelog_event_idempotent "ABC-1" "2024-05-01T10:00:00.000+0000"
      "status" none (some "Done")).1,
   (insert_changelog_event_idempotent "ABC-1" "2024-05-01T10:00:00.000+0000"
      "status" none (some "Done")).2.1 (some "Open")
      (by simp [coalesceEmpty, optStr])⟩

/-- C5: in sync's changelog walk, a history item whose field is untracked
(not one of "status", "Flagged", "assignee" — e.g. "priority") produces no
changelog event row; an item whose field is one of the three produces
exactly one event row keyed by the history's timestamp, the field, the
from-string and the to-string (when that identity is not already stored). -/
theorem changelog_item_filter (db : DB) (issue_key changed_at : JVal) (item : JVal) :
    (trackedField (getJ item "field") = false →
      processItem db issue_key changed_at item = (db, 0))
    ∧ (∀ s : String, getJ item "field" = jstr s →
        s = "status" ∨ s = "Flagged" ∨ s = "assignee" →
        db.events.any (fun r => dedupeHit r issue_key changed_at (jstr s)
          (getJ item "fromString") (getJ item "toString")) = false →
        processItem db issue_key changed_at item =
          ({ db with events := db.events ++ [⟨issue_key, changed_at, jstr s,
              getJ item "fromString", getJ item "toString"⟩] }, 1)) := by
  constructor
  · intro h
    simp [processItem, h]
  · intro s hs htracked hdup
    rcases htracked with rfl | rfl | rfl <;>
      simp [processItem, hs, trackedField, insert_changelog_event, hdup]

/-- Witness for C5: a "priority" item adds nothing; a "status" item with
from-string "To Do" and to-string "In Progress" adds exactly that event. -/
theorem changelog_item_filter_witness :
    (processItem DB.empty (jstr "K0") (jstr "2024-05-01T10:00:00.000+0000")
      (jobj [("field", jstr "priority"), ("fromString", jstr "Low"),
             ("toString", jstr "High")]) = (DB.empty, 0))
    ∧ (processItem DB.empty (jstr "K0") (jstr "2024-05-01T10:00:00.000+0000")
      (jobj [("field", jstr "status"), ("fromString", jstr "To Do"),
             ("toString", jstr "In Progress")]) =
      ({ DB.empty with events := DB.empty.events ++
          [⟨jstr "K0", jstr "2024-05-01T10:00:00.000+0000", jstr "status",
            getJ (jobj [("field", jstr "status"), ("fromString", jstr "To Do"),
             ("toString", jstr "In Progress")]) "fromString",
            getJ (jobj [("field", jstr "status"), ("fromString", jstr "To Do"),
             ("toString", jstr "In Progress")]) "toString"⟩] }, 1)) :=
  ⟨(changelog_item_filter DB.empty (jstr "K0") (jstr "2024-05-01T10:00:00.000+0000")
      (jobj [("field", jstr "priority"), ("fromString", jstr "Low"),
             ("toString", jstr "High")])).1 (by rfl),
   (changelog_item_filter DB.empty (jstr "K0") (jstr "2024-05-01T10:00:00.000+0000")
      (jobj [("field", jstr "status"), ("fromString", jstr "To Do"),
             ("toString", jstr "In Progress")])).2 "status" (by rfl)
      (Or.inl rfl) (by rfl)⟩

/-- C10: an issue payload whose "key" entry is absent or falsy is skipped
entirely by the per-page loop: processing the page with it is the same as
processing the page without it — no upsert, no events, no count, no
error. -/
theorem sync_skips_falsy_key_issues (limit : Int) (issue : JVal)
    (rest : List JVal) (st : SyncState) :
    truthy (getJ issue "key") = false →
    processIssues limit (issue :: rest) st = processIssues limit rest st := by
  intro h
  simp [processIssues, h]

/-- Witness for C10: a payload whose key is the falsy empty string is
skipped. -/
theorem sync_skips_falsy_key_issues_witness :
    processIssues 0 [jobj [("key", jstr "")]] (syncInit DB.empty) =
      processIssues 0 [] (syncInit DB.empty) :=
  sync_skips_falsy_key_issues 0 (jobj [("key", jstr "")]) [] (syncInit DB.empty)
    (by rfl)

/-- Mapping a pointwise-identity function over a list changes nothing. -/
theorem map_eq_self_of_mem {α : Type} (l : List α) (f : α → α)
    (h : ∀ a ∈ l, f a = a) : l.map f = l := by
  induction l with
  | nil => rfl
  | cons x xs ih =>
    simp only [List.map_cons, h x (by simp)]
    rw [ih (fun a ha => h a (by simp [ha]))]

/-- The derived primary-key column is the payload's "key" entry. -/
theorem derivedRow_key (issue : JVal) :
    (derivedRow issue).issue_key = getJ issue "key" := rfl

/-- `upsert_issue` with its let-binding unfolded. -/
theorem upsert_issue_eq (db : DB) (issue : JVal) :
    upsert_issue db issue =
      if db.issues.any (fun r => sqlIndexEq r.issue_key (getJ issue "key")) then
        { db with issues := db.issues.map (fun r =>
            if sqlIndexEq r.issue_key (getJ issue "key") then derivedRow issue
            else r) }
      else { db with issues := db.issues ++ [derivedRow issue] } := rfl

/-- C6: upserting two payloads that share the same issue key (fresh in the
database) leaves exactly one issues row for that key, with every derived
column and the raw payload equal to the second call's values — the
primary-key conflict fully overwrites. -/
theorem upsert_issue_last_write_wins (db : DB) (i1 i2 : JVal) (k : String)
    (hk1 : getJ i1 "key" = jstr k) (hk2 : getJ i2 "key" = jstr k)
    (hfresh : ∀ r ∈ db.issues, sqlIndexEq r.issue_key (jstr k) = false) :
    (upsert_issue (upsert_issue db i1) i2).issues = db.issues ++ [derivedRow i2]
    ∧ (upsert_issue (upsert_issue db i1) i2).issues.filter
        (fun r => sqlIndexEq r.issue_key (jstr k)) = [derivedRow i2] := by
  have hany1 : db.issues.any (fun r => sqlIndexEq r.issue_key (jstr k)) = false :=
    List.any_eq_false.mpr (fun r hr => by rw [hfresh r hr]; simp)
  have hstep1 : upsert_issue db i1 = { db with issues := db.issues ++ [derivedRow i1] } := by
    rw [upsert_issue_eq, hk1, hany1]
    simp
  have hrow1 : (derivedRow i1).issue_key = jstr k := by rw [derivedRow_key, hk1]
  have hrow2 : (derivedRow i2).issue_key = jstr k := by rw [derivedRow_key, hk2]
  have hany2 : (db.issues ++ [derivedRow i1]).any
      (fun r => sqlIndexEq r.issue_key (jstr k)) = true := by
    rw [List.any_append]
    simp [hrow1, sqlIndexEq_jstr]
  have hstep2 : (upsert_issue (upsert_issue db i1) i2).issues =
      db.issues ++ [derivedRow i2] := by
    rw [hstep1, upsert_issue_eq, hk2]
    simp only [hany2, if_true]
    rw [List.map_append]
    have hmapold : db.issues.map (fun r =>
        if sqlIndexEq r.issue_key (jstr k) then derivedRow i2 else r) = db.issues :=
      map_eq_self_of_mem db.issues _ (fun r hr => by simp [hfresh r hr])
    rw [hmapold]
    simp [hrow1, sqlIndexEq_jstr]
  refine ⟨hstep2, ?_⟩
  rw [hstep2, List.filter_append]
  have hfilterold : db.issues.filter (fun r => sqlIndexEq r.issue_key (jstr k)) = [] := by
    rw [List.filter_eq_nil_iff]
    intro r hr
    rw [hfresh r hr]
    simp
  rw [hfilterold]
  simp [hrow2, sqlIndexEq_jstr]

/-- Witness for C6: two upserts of ABC-1, first with status "To Do", then
with status "Done", leave the single row derived from the second payload. -/
theorem upsert_issue_last_write_wins_witness :
    (upsert_issue (upsert_issue DB.empty
        (jobj [("key", jstr "ABC-1"),
               ("fields", jobj [("status", jobj [("name", jstr "To Do")])])]))
        (jobj [("key", jstr "ABC-1"),
               ("fields", jobj [("status", jobj [("name", jstr "Done")])])])).issues =
      DB.empty.issues ++ [derivedRow (jobj [("key", jstr "ABC-1"),
        ("fields", jobj [("status", jobj [("name", jstr "Done")])])])]
    ∧ (upsert_issue (upsert_issue DB.empty
        (jobj [("key", jstr "ABC-1"),
               ("fields", jobj [("status", jobj [("name", jstr "To Do")])])]))
        (jobj [("key", jstr "ABC-1"),
               ("fields", jobj [("status", jobj [("name", jstr "Done")])])])).issues.filter
        (fun r => sqlIndexEq r.issue_key (jstr "ABC-1")) =
      [derivedRow (jobj [("key", jstr "ABC-1"),
        ("fields", jobj [("status", jobj [("name", jstr "Done")])])])] :=
  upsert_issue_last_write_wins DB.empty
    (jobj [("key", jstr "ABC-1"),
           ("fields", jobj [("status", jobj [("name", jstr "To Do")])])])
    (jobj [("key", jstr "ABC-1"),
           ("fields", jobj [("status", jobj [("name", jstr "Done")])])])
    "ABC-1" (by rfl) (by rfl) (by simp [DB.empty])

/-- Reading back a freshly written profile file finds the written record. -/
theorem storeRead_storeWrite (store : ProfileStore) (stem : String) (p : ClientProfile) :
    storeRead (storeWrite store stem p) stem = some p := by
  induction store with
  | nil => simp [storeWrite, storeRead]
  | cons kv rest ih =>
    obtain ⟨k, v⟩ := kv
    by_cases h : k = stem <;> simp [storeWrite, storeRead, h, ih]

/-- C7: `save_profile` followed by `load_profile` of the same name returns
a structurally equal record for every profile (defaults included), and
`load_profile` of an unsaved name fails with the FileNotFoundError message
that names the profile and the `configure` remediation command. -/
theorem profile_roundtrip_and_missing (home : String) (store : ProfileStore)
    (p : ClientProfile) :
    load_profile home (save_profile store p) p.name = .ok p
    ∧ (∀ name, storeRead store name = none →
        load_profile home store name = .error ("Profile '" ++ name ++
          "' not found at " ++ profile_path home name ++
          ". Run: python -m jira-audit.cli configure " ++ name)) := by
  constructor
  · simp [load_profile, save_profile, storeRead_storeWrite]
  · intro name h
    simp [load_profile, h]

/-- Witness for C7: the `configure`-shaped profile "acme" (default-valued
list and mapping fields spelled out) round-trips, and loading "acme" from
an empty store fails with the message naming the profile and the
remediation command. -/
theorem profile_roundtrip_and_missing_witness :
    load_profile "/Users/op" (save_profile [] acmeProfile) "acme" = .ok acmeProfile
    ∧ load_profile "/Users/op" [] "acme" = .error
        ("Profile 'acme' not found at /Users/op/.jira-audit/clients/acme.yaml. Run: python -m jira-audit.cli configure acme") :=
  ⟨(profile_roundtrip_and_missing "/Users/op" [] acmeProfile).1,
   (profile_roundtrip_and_missing "/Users/op" [] acmeProfile).2 "acme" (by rfl)⟩

/-- C9 (code-bug evidence): on a status below 400 `whoami` prints the
response's display name but looks the account identifier up under the key
"accountID", while Jira Cloud's `/myself` body carries it under
"accountId" — so on a real success body the account print is None even
though the identifier is present; on a status of 400 or more it prints the
failure status and body text and exits with code 1 without identity
fields. -/
theorem whoami_account_lookup :
    (whoami_handle 200 "" myselfBody).printedDisplay = some (jstr "Jane Doe")
    ∧ (whoami_handle 200 "" myselfBody).printedAccount = some jnull
    ∧ getJ myselfBody "accountId" = jstr "5b10ac8d82e05b22cc7d4ef5"
    ∧ (whoami_handle 200 "" myselfBody).exitCode = 0
    ∧ whoami_handle 401 "Unauthorized" jnull =
        ⟨1, some 401, some "Unauthorized", none, none⟩ :=
  ⟨rfl, rfl, rfl, rfl, rfl⟩

/-- Event inserts never touch the sync_runs table. -/
theorem insert_changelog_event_syncRuns (db : DB) (a b c d e : JVal) :
    (insert_changelog_event db a b c d e).syncRuns = db.syncRuns := by
  unfold insert_changelog_event
  split <;> rfl

/-- Issue upserts never touch the sync_runs table. -/
theorem upsert_issue_syncRuns (db : DB) (issue : JVal) :
    (upsert_issue db issue).syncRuns = db.syncRuns := by
  rw [upsert_issue_eq]
  split <;> rfl

/-- The per-item step never touches the sync_runs table. -/
theorem processItem_syncRuns (db : DB) (ik ca item : JVal) :
    ((processItem db ik ca item).1).syncRuns = db.syncRuns := by
  simp only [processItem]
  split
  · simp [insert_changelog_event_syncRuns]
  · rfl

/-- The item loop never touches the sync_runs table. -/
theorem processItems_syncRuns (ik ca : JVal) :
    ∀ (items : List JVal) (db : DB),
      ((processItems db ik ca items).1).syncRuns = db.syncRuns := by
  intro items
  induction items with
  | nil => intro db; rfl
  | cons item rest ih =>
    intro db
    rcases hpi : processItem db ik ca item with ⟨db1, n1⟩
    rcases hpr : processItems db1 ik ca rest with ⟨db2, n2⟩
    have e1 : db1.syncRuns = db.syncRuns := by
      have := processItem_syncRuns db ik ca item
      rwa [hpi] at this
    have e2 : db2.syncRuns = db1.syncRuns := by
      have := ih db1
      rwa [hpr] at this
    simp only [processItems, hpi, hpr]
    rw [e2, e1]

/-- One history's walk never touches the sync_runs table. -/
theorem processHistory_syncRuns (db : DB) (ik h : JVal) :
    ((processHistory db ik h).1).syncRuns = db.syncRuns := by
  unfold processHistory
  exact processItems_syncRuns ik (getJ h "created") _ db

/-- The history loop never touches the sync_runs table. -/
theorem processHistories_syncRuns (ik : JVal) :
    ∀ (hs : List JVal) (db : DB),
      ((processHistories db ik hs).1).syncRuns = db.syncRuns := by
  intro hs
  induction hs with
  | nil => intro db; rfl
  | cons h rest ih =>
    intro db
    rcases hph : processHistory db ik h with ⟨db1, n1⟩
    rcases hpr : processHistories db1 ik rest with ⟨db2, n2⟩
    have e1 : db1.syncRuns = db.syncRuns := by
      have := processHistory_syncRuns db ik h
      rwa [hph] at this
    have e2 : db2.syncRuns = db1.syncRuns := by
      have := ih db1
      rwa [hpr] at this
    simp only [processHistories, hph, hpr]
    rw [e2, e1]

/-- One issue's changelog walk never touches the sync_runs table. -/
theorem processChangelog_syncRuns (db : DB) (ik issue : JVal) :
    ((processChangelog db ik issue).1).syncRuns = db.syncRuns := by
  unfold processChangelog
  exact processHistories_syncRuns ik _ db

/-- The per-page issue loop never touches the sync_runs table. -/
theorem processIssues_syncRuns (limit : Int) :
    ∀ (issues : List JVal) (st : SyncState),
      ((processIssues limit issues st).1).db.syncRuns = st.db.syncRuns := by
  intro issues
  induction issues with
  | nil => intro st; rfl
  | cons issue rest ih =>
    intro st
    by_cases hk : truthy (getJ issue "key") = true
    · rcases hpc : processChangelog (upsert_issue st.db issue) (getJ issue "key") issue
        with ⟨db2, ev⟩
      have e2 : db2.syncRuns = st.db.syncRuns := by
        have h1 := processChangelog_syncRuns (upsert_issue st.db issue)
          (getJ issue "key") issue
        rw [hpc] at h1
        rw [h1, upsert_issue_syncRuns]
      simp only [processIssues, hk, Bool.not_true, Bool.false_eq_true, if_false, hpc]
      split
      · exact e2
      · rw [ih]
        exact e2
    · have hk' : truthy (getJ issue "key") = false := by
        revert hk
        cases truthy (getJ issue "key") <;> simp
      simp only [processIssues, hk', Bool.not_false, if_true]
      exact ih st

/-- The sync pagination loop never touches the sync_runs table. -/
theorem syncLoop_syncRuns (server : Nat → JVal) (limit : Int) :
    ∀ (fuel : Nat) (st : SyncState),
      (syncLoop server limit fuel st).db.syncRuns = st.db.syncRuns := by
  intro fuel
  induction fuel with
  | zero => intro st; rfl
  | succ n ih =>
    intro st
    simp only [syncLoop]
    split
    · rfl
    · split
      next st1 heq =>
        have e1 := processIssues_syncRuns limit (pageIssues (server st.startAt))
          { st with requests := st.requests ++ [st.startAt] }
        rw [heq] at e1
        exact e1
      next st1 heq =>
        have e1 := processIssues_syncRuns limit (pageIssues (server st.startAt))
          { st with requests := st.requests ++ [st.startAt] }
        rw [heq] at e1
        split
        · exact e1
        · rw [ih]
          exact e1

/-- Every member of a Nat list is at most its right-fold maximum. -/
theorem mem_le_foldr_max (l : List Nat) (x : Nat) (hx : x ∈ l) :
    x ≤ l.foldr max 0 := by
  induction l with
  | nil => cases hx
  | cons y ys ih =>
    rcases List.mem_cons.mp hx with rfl | hmem
    · exact le_max_left _ _
    · exact le_trans (ih hmem) (le_max_right _ _)

/-- A freshly assigned run id collides with no stored row. -/
theorem stored_id_ne_nextRunId (db : DB) (r : SyncRunRow) (hr : r ∈ db.syncRuns) :
    r.id ≠ nextRunId db := by
  have hle : r.id ≤ (db.syncRuns.map (fun q => q.id)).foldr max 0 :=
    mem_le_foldr_max _ _ (List.mem_map_of_mem _ hr)
  unfold nextRunId
  omega

/-- C8 (amended): db.py's `insert_sync_run_start` / `finish_sync_run` do
bracket a run — the start call appends exactly one sync_runs record and
returns its identifier, and finishing with that identifier updates exactly
that record with finished_at, the counts, and the error — but the `sync`
command in this snapshot never invokes them: the pagination loop leaves
the sync_runs table untouched, so no sync attempt creates or updates a
sync_runs record. -/
theorem sync_run_bracket_unwired :
    (∀ (db : DB) (s : String),
      insert_sync_run_start db s =
        ({ db with syncRuns :=
            db.syncRuns ++ [⟨nextRunId db, s, none, 0, 0, none⟩] },
         nextRunId db))
    ∧ (∀ (db : DB) (s f : String) (ic ec : Int) (err : Option String),
        finish_sync_run (insert_sync_run_start db s).1 (insert_sync_run_start db s).2
            f ic ec err =
          { db with syncRuns :=
              db.syncRuns ++ [⟨nextRunId db, s, some f, ic, ec, err⟩] })
    ∧ (∀ (server : Nat → JVal) (limit : Int) (fuel : Nat) (st : SyncState),
        (syncLoop server limit fuel st).db.syncRuns = st.db.syncRuns) := by
  refine ⟨fun db s => rfl, ?_, fun server limit fuel st => syncLoop_syncRuns server limit fuel st⟩
  intro db s f ic ec err
  simp only [insert_sync_run_start, finish_sync_run, List.map_append]
  have hold : db.syncRuns.map (fun r =>
      if r.id = nextRunId db then
        { r with finished_at := some f, issues_count := ic,
                 events_count := ec, error := err }
      else r) = db.syncRuns :=
    map_eq_self_of_mem db.syncRuns _
      (fun r hr => if_neg (stored_id_ne_nextRunId db r hr))
  rw [hold]
  simp

/-- C8 (counterexample): a complete one-page sync attempt — it stops with
the reached-total condition having seen its one issue — leaves the
sync_runs table empty: no record is created at sync start or updated at
sync end. -/
theorem sync_creates_no_sync_run_record :
    (syncRun serverOne 0 5 DB.empty).stop = some StopReason.reachedTotal
    ∧ (syncRun serverOne 0 5 DB.empty).totalSeen = 1
    ∧ (syncRun serverOne 0 5 DB.empty).db.syncRuns = [] :=
  ⟨rfl, rfl, rfl⟩

/-- With a positive limit, the issue loop keeps `total_seen` at or below
the limit, and strictly below it whenever it did not return early: the
check `if limit and total_seen >= limit` fires immediately after the
count reaches the limit. -/
theorem processIssues_totalSeen_le (limit : Int) :
    ∀ (issues : List JVal) (st : SyncState), 0 < limit →
      (st.totalSeen : Int) < limit →
      (((processIssues limit issues st).1.totalSeen : Int) ≤ limit
        ∧ ((processIssues limit issues st).2 = false →
            ((processIssues limit issues st).1.totalSeen : Int) < limit)) := by
  intro issues
  induction issues with
  | nil =>
    intro st hpos h
    exact ⟨le_of_lt h, fun _ => h⟩
  | cons issue rest ih =>
    intro st hpos h
    by_cases hk : truthy (getJ issue "key") = true
    · simp only [processIssues, hk, Bool.not_true, Bool.false_eq_true, if_false]
      rcases hpc : processChangelog (upsert_issue st.db issue) (getJ issue "key") issue
        with ⟨db2, ev⟩
      by_cases hcond : limit ≠ 0 ∧ ((st.totalSeen + 1 : Nat) : Int) ≥ limit
      · rw [if_pos hcond]
        refine ⟨?_, ?_⟩
        · show ((st.totalSeen + 1 : Nat) : Int) ≤ limit
          push_cast
          omega
        · intro hfl
          cases hfl
      · rw [if_neg hcond]
        have hne : limit ≠ 0 := by omega
        have hlt : ((st.totalSeen + 1 : Nat) : Int) < limit := by
          rcases not_and_or.mp hcond with hbad | hge
          · exact absurd hne hbad
          · omega
        exact ih _ hpos hlt
    · have hk' : truthy (getJ issue "key") = false := by
        revert hk
        cases truthy (getJ issue "key") <;> simp
      simp only [processIssues, hk', Bool.not_false, if_true]
      exact ih st hpos h

/-- With a positive limit, the whole pagination loop reports at most
`limit` issues. -/
theorem syncLoop_totalSeen_le (server : Nat → JVal) (limit : Int)
    (hpos : 0 < limit) :
    ∀ (fuel : Nat) (st : SyncState), (st.totalSeen : Int) < limit →
      ((syncLoop server limit fuel st).totalSeen : Int) ≤ limit := by
  intro fuel
  induction fuel with
  | zero => intro st h; exact le_of_lt h
  | succ n ih =>
    intro st h
    simp only [syncLoop]
    split
    · exact le_of_lt h
    · split
      next st1 heq =>
        have hb := processIssues_totalSeen_le limit (pageIssues (server st.startAt))
          { st with requests := st.requests ++ [st.startAt] } hpos h
        rw [heq] at hb
        exact hb.1
      next st1 heq =>
        have hb := processIssues_totalSeen_le limit (pageIssues (server st.startAt))
          { st with requests := st.requests ++ [st.startAt] } hpos h
        rw [heq] at hb
        have hlt : (st1.totalSeen : Int) < limit := hb.2 rfl
        split
        · exact le_of_lt hlt
        · exact ih _ hlt

/-- C3: with `limit = 10` and a first page of 100 issues, `sync` stops
mid-page right after upserting the tenth issue — one single search request
(startAt 0), reported issues = 10, stop reason the limit check — and in
general, whenever a positive limit is set, the loop stops once the running
issue count reaches it, so the reported count never exceeds the limit. -/
theorem sync_limit_stops_midpage :
    (syncRun server250 10 10 DB.empty).requests = [0]
    ∧ (syncRun server250 10 10 DB.empty).totalSeen = 10
    ∧ (syncRun server250 10 10 DB.empty).stop = some StopReason.limitReached
    ∧ (syncRun server250 10 10 DB.empty).db.issues.length = 10
    ∧ (∀ (server : Nat → JVal) (limit : Int) (fuel : Nat) (db : DB), 0 < limit →
        ((syncRun server limit fuel db).totalSeen : Int) ≤ limit) := by
  refine ⟨rfl, rfl, rfl, rfl, ?_⟩
  intro server limit fuel db hpos
  refine syncLoop_totalSeen_le server limit hpos fuel _ ?_
  show ((0 : Nat) : Int) < limit
  simpa using hpos

/-- Witness for C3's general bound at a concrete input. -/
theorem sync_limit_stops_midpage_witness :
    ((syncRun server250 10 3 DB.empty).totalSeen : Int) ≤ 10 :=
  sync_limit_stops_midpage.2.2.2.2 server250 10 3 DB.empty (by norm_num)

/-- The issue loop never changes `start_at` or the request log. -/
theorem processIssues_startAt_requests (limit : Int) :
    ∀ (issues : List JVal) (st : SyncState),
      (processIssues limit issues st).1.startAt = st.startAt
      ∧ (processIssues limit issues st).1.requests = st.requests := by
  intro issues
  induction issues with
  | nil => intro st; exact ⟨rfl, rfl⟩
  | cons issue rest ih =>
    intro st
    by_cases hk : truthy (getJ issue "key") = true
    · rcases hpc : processChangelog (upsert_issue st.db issue) (getJ issue "key") issue
        with ⟨db2, ev⟩
      simp only [processIssues, hk, Bool.not_true, Bool.false_eq_true, if_false, hpc]
      split
      · exact ⟨rfl, rfl⟩
      · exact ih _
    · have hk' : truthy (getJ issue "key") = false := by
        revert hk
        cases truthy (getJ issue "key") <;> simp
      simp only [processIssues, hk', Bool.not_false, if_true]
      exact ih st

/-- With `limit = 0` (no limit), the early-return branch never fires. -/
theorem processIssues_limit_zero :
    ∀ (issues : List JVal) (st : SyncState),
      (processIssues 0 issues st).2 = false := by
  intro issues
  induction issues with
  | nil => intro st; rfl
  | cons issue rest ih =>
    intro st
    by_cases hk : truthy (getJ issue "key") = true
    · rcases hpc : processChangelog (upsert_issue st.db issue) (getJ issue "key") issue
        with ⟨db2, ev⟩
      simp only [processIssues, hk, Bool.not_true, Bool.false_eq_true, if_false, hpc]
      rw [if_neg (fun hc => hc.1 rfl)]
      exact ih _
    · have hk' : truthy (getJ issue "key") = false := by
        revert hk
        cases truthy (getJ issue "key") <;> simp
      simp only [processIssues, hk', Bool.not_false, if_true]
      exact ih st

/-- A member of `getLast?` is a member of the list. -/
theorem mem_of_mem_getLast? {α : Type} {l : List α} {x : α}
    (h : x ∈ l.getLast?) : x ∈ l := by
  obtain ⟨hne, rfl⟩ := List.mem_getLast?_eq_getLast h
  exact List.getLast_mem hne

/-- Invariant form of the increasing-startAt property: if every logged
request is below the current `start_at` and the log is strictly
increasing, the loop keeps the log strictly increasing. -/
theorem syncLoop_requests_chain (server : Nat → JVal) (limit : Int) :
    ∀ (fuel : Nat) (st : SyncState),
      (∀ r ∈ st.requests, r < st.startAt) →
      List.Chain' (· < ·) st.requests →
      List.Chain' (· < ·) (syncLoop server limit fuel st).requests := by
  intro fuel
  induction fuel with
  | zero => intro st _ hch; exact hch
  | succ n ih =>
    intro st hlt hch
    have hch0 : List.Chain' (· < ·) (st.requests ++ [st.startAt]) := by
      rw [List.chain'_append]
      refine ⟨hch, List.chain'_singleton _, ?_⟩
      intro x hx y hy
      have hy' : st.startAt = y := by simpa using hy
      subst hy'
      exact hlt x (mem_of_mem_getLast? hx)
    simp only [syncLoop]
    split
    · exact hch0
    next hemp =>
      split
      next st1 heq =>
        have hpr := (processIssues_startAt_requests limit
          (pageIssues (server st.startAt))
          { st with requests := st.requests ++ [st.startAt] }).2
        rw [heq] at hpr
        show List.Chain' (· < ·) st1.requests
        rw [hpr]
        exact hch0
      next st1 heq =>
        have hpr0 := (processIssues_startAt_requests limit
          (pageIssues (server st.startAt))
          { st with requests := st.requests ++ [st.startAt] }).2
        have hsa0 := (processIssues_startAt_requests limit
          (pageIssues (server st.startAt))
          { st with requests := st.requests ++ [st.startAt] }).1
        rw [heq] at hpr0 hsa0
        have hpr : st1.requests = st.requests ++ [st.startAt] := hpr0
        have hsa : st1.startAt = st.startAt := hsa0
        have hlen : 1 ≤ (pageIssues (server st.startAt)).length := by
          rcases hpage : pageIssues (server st.startAt) with _ | ⟨a, rest⟩
          · rw [hpage] at hemp
            simp at hemp
          · simp
        split
        · show List.Chain' (· < ·) st1.requests
          rw [hpr]
          exact hch0
        · apply ih
          · intro r hr
            show r < st1.startAt + (pageIssues (server st.startAt)).length
            rw [hpr] at hr
            rw [hsa]
            rcases List.mem_append.mp hr with hold | hnew
            · have := hlt r hold
              omega
            · have : r = st.startAt := by simpa using hnew
              omega
          · show List.Chain' (· < ·) st1.requests
            rw [hpr]
            exact hch0

/-- The loop breaks with no further request when a page comes back with no
issues. -/
theorem syncLoop_stops_on_empty_page (server : Nat → JVal) (limit : Int)
    (fuel : Nat) (st : SyncState)
    (h : pageIssues (server st.startAt) = []) :
    syncLoop server limit (fuel + 1) st =
      { st with requests := st.requests ++ [st.startAt],
                stop := some StopReason.emptyPage } := by
  simp only [syncLoop, h, List.isEmpty_nil, if_true]

/-- With no limit, the loop breaks right after the page that makes the
cumulative fetched count reach the reported total. -/
theorem syncLoop_stops_on_total (server : Nat → JVal) (fuel : Nat)
    (st : SyncState)
    (hne : pageIssues (server st.startAt) ≠ [])
    (hge : ((st.startAt + (pageIssues (server st.startAt)).length : Nat) : Int) ≥
      pageTotal (server st.startAt)) :
    syncLoop server 0 (fuel + 1) st =
      { (processIssues 0 (pageIssues (server st.startAt))
          { st with requests := st.requests ++ [st.startAt] }).1 with
        startAt := st.startAt + (pageIssues (server st.startAt)).length,
        stop := some StopReason.reachedTotal } := by
  rcases hpi : processIssues 0 (pageIssues (server st.startAt))
      { st with requests := st.requests ++ [st.startAt] } with ⟨st1, early⟩
  have hearly : early = false := by
    have := processIssues_limit_zero (pageIssues (server st.startAt))
      { st with requests := st.requests ++ [st.startAt] }
    rwa [hpi] at this
  subst hearly
  have hsa : st1.startAt = st.startAt := by
    have := (processIssues_startAt_requests 0 (pageIssues (server st.startAt))
      { st with requests := st.requests ++ [st.startAt] }).1
    rwa [hpi] at this
  have hne' : (pageIssues (server st.startAt)).isEmpty = false := by
    rcases hpage : pageIssues (server st.startAt) with _ | ⟨a, rest⟩
    · exact absurd hpage hne
    · rfl
  simp only [syncLoop, hne', Bool.false_eq_true, if_false, hpi, hsa]
  rw [if_pos hge]

/-- With no limit, the loop requests the next page (at the advanced
startAt) when the cumulative fetched count is still short of the total. -/
theorem syncLoop_continues (server : Nat → JVal) (fuel : Nat)
    (st : SyncState)
    (hne : pageIssues (server st.startAt) ≠ [])
    (hlt : ((st.startAt + (pageIssues (server st.startAt)).length : Nat) : Int) <
      pageTotal (server st.startAt)) :
    syncLoop server 0 (fuel + 1) st =
      syncLoop server 0 fuel
        { (processIssues 0 (pageIssues (server st.startAt))
            { st with requests := st.requests ++ [st.startAt] }).1 with
          startAt := st.startAt + (pageIssues (server st.startAt)).length } := by
  rcases hpi : processIssues 0 (pageIssues (server st.startAt))
      { st with requests := st.requests ++ [st.startAt] } with ⟨st1, early⟩
  have hearly : early = false := by
    have := processIssues_limit_zero (pageIssues (server st.startAt))
      { st with requests := st.requests ++ [st.startAt] }
    rwa [hpi] at this
  subst hearly
  have hsa : st1.startAt = st.startAt := by
    have := (processIssues_startAt_requests 0 (pageIssues (server st.startAt))
      { st with requests := st.requests ++ [st.startAt] }).1
    rwa [hpi] at this
  have hne' : (pageIssues (server st.startAt)).isEmpty = false := by
    rcases hpage : pageIssues (server st.startAt) with _ | ⟨a, rest⟩
    · exact absurd hpage hne
    · rfl
  simp only [syncLoop, hne', Bool.false_eq_true, if_false, hpi, hsa]
  rw [if_neg (not_le.mpr hlt)]

/-- C1: with the search backend reporting total = 150, page size 100 and
no limit, `sync` issues exactly two search requests (startAt 0 and
startAt 100), reports `total_seen = 150`, and stops on the total-reached
condition; in general the loop requests pages at strictly increasing
startAt values, breaks (issuing no further request) exactly when a page
returns no issues, and otherwise — with no limit set — breaks when the
cumulative fetched count reaches the reported total and continues with
the next page when it does not. -/
theorem sync_pagination_two_pages :
    (syncRun server150 0 10 DB.empty).requests = [0, 100]
    ∧ (syncRun server150 0 10 DB.empty).totalSeen = 150
    ∧ (syncRun server150 0 10 DB.empty).stop = some StopReason.reachedTotal
    ∧ (∀ (server : Nat → JVal) (limit : Int) (fuel : Nat) (db : DB),
        List.Chain' (· < ·) (syncRun server limit fuel db).requests)
    ∧ (∀ (server : Nat → JVal) (limit : Int) (fuel : Nat) (st : SyncState),
        pageIssues (server st.startAt) = [] →
        syncLoop server limit (fuel + 1) st =
          { st with requests := st.requests ++ [st.startAt],
                    stop := some StopReason.emptyPage })
    ∧ (∀ (server : Nat → JVal) (fuel : Nat) (st : SyncState),
        pageIssues (server st.startAt) ≠ [] →
        ((st.startAt + (pageIssues (server st.startAt)).length : Nat) : Int) ≥
          pageTotal (server st.startAt) →
        syncLoop server 0 (fuel + 1) st =
          { (processIssues 0 (pageIssues (server st.startAt))
              { st with requests := st.requests ++ [st.startAt] }).1 with
            startAt := st.startAt + (pageIssues (server st.startAt)).length,
            stop := some StopReason.reachedTotal })
    ∧ (∀ (server : Nat → JVal) (fuel : Nat) (st : SyncState),
        pageIssues (server st.startAt) ≠ [] →
        ((st.startAt + (pageIssues (server st.startAt)).length : Nat) : Int) <
          pageTotal (server st.startAt) →
        syncLoop server 0 (fuel + 1) st =
          syncLoop server 0 fuel
            { (processIssues 0 (pageIssues (server st.startAt))
                { st with requests := st.requests ++ [st.startAt] }).1 with
              startAt := st.startAt + (pageIssues (server st.startAt)).length }) := by
  refine ⟨rfl, rfl, rfl, ?_, ?_, ?_, ?_⟩
  · intro server limit fuel db
    apply syncLoop_requests_chain
    · intro r hr
      cases hr
    · exact List.chain'_nil
  · exact fun server limit fuel st h => syncLoop_stops_on_empty_page server limit fuel st h
  · exact fun server fuel st hne hge => syncLoop_stops_on_total server fuel st hne hge
  · exact fun server fuel st hne hlt => syncLoop_continues server fuel st hne hlt

/-- Witness for C1's conditional conjuncts at concrete inputs: an
empty-page backend stops with the empty-page condition after its single
request; a one-issue backend with total 1 stops with the total-reached
condition; and the 150-issue backend continues past its first page. -/
theorem sync_pagination_two_pages_witness :
    (syncLoop serverEmpty 0 1 (syncInit DB.empty) =
      { syncInit DB.empty with
        requests := (syncInit DB.empty).requests ++ [(syncInit DB.empty).startAt],
        stop := some StopReason.emptyPage })
    ∧ (syncLoop serverOne 0 1 (syncInit DB.empty) =
      { (processIssues 0 (pageIssues (serverOne (syncInit DB.empty).startAt))
          { syncInit DB.empty with
            requests := (syncInit DB.empty).requests ++
              [(syncInit DB.empty).startAt] }).1 with
        startAt := (syncInit DB.empty).startAt +
          (pageIssues (serverOne (syncInit DB.empty).startAt)).length,
        stop := some StopReason.reachedTotal })
    ∧ (syncLoop server150 0 2 (syncInit DB.empty) =
      syncLoop server150 0 1
        { (processIssues 0 (pageIssues (server150 (syncInit DB.empty).startAt))
            { syncInit DB.empty with
              requests := (syncInit DB.empty).requests ++
                [(syncInit DB.empty).startAt] }).1 with
          startAt := (syncInit DB.empty).startAt +
            (pageIssues (server150 (syncInit DB.empty).startAt)).length }) :=
  ⟨sync_pagination_two_pages.2.2.2.2.1 serverEmpty 0 0 (syncInit DB.empty) rfl,
   sync_pagination_two_pages.2.2.2.2.2.1 serverOne 0 (syncInit DB.empty)
     (List.cons_ne_nil _ _) (by decide),
   sync_pagination_two_pages.2.2.2.2.2.2 server150 1 (syncInit DB.empty)
     (List.cons_ne_nil _ _) (by decide)⟩

/-- C4: `search_issues` sleeps exactly the Retry-After value on a 429/503
carrying the header and retries the identical request; without the header
it sleeps an exponential backoff starting at 1.0 s and doubling per retry
(two bare 503s: sleeps 1 then 2) capped at 30 s (seven bare 503s: sleeps
1, 2, 4, 8, 16, 30, 30); any other HTTP error status raises an error
carrying the status; success returns the parsed JSON body unmodified. -/
theorem search_issues_retry_backoff :
    (search_issues resp429 "project = ABC" ["status", "created"]
        (some "changelog") 0 100 5 =
      ⟨[mkParams "project = ABC" ["status", "created"] (some "changelog") 0 100,
        mkParams "project = ABC" ["status", "created"] (some "changelog") 0 100],
       [2], some (.ok okBody)⟩)
    ∧ (search_issues resp503x2 "project = ABC" ["status", "created"]
        (some "changelog") 0 100 5 =
      ⟨[mkParams "project = ABC" ["status", "created"] (some "changelog") 0 100,
        mkParams "project = ABC" ["status", "created"] (some "changelog") 0 100,
        mkParams "project = ABC" ["status", "created"] (some "changelog") 0 100],
       [1, 2], some (.ok okBody)⟩)
    ∧ ((search_issues resp503x7 "project = ABC" ["status", "created"]
        (some "changelog") 0 100 10).sleeps = [1, 2, 4, 8, 16, 30, 30])
    ∧ (∀ (responses : Nat → HttpResp) (jql : String) (fields : List String)
        (expand : Option String) (s m fuel : Nat),
        (responses 0).status ≥ 400 → (responses 0).status ≠ 429 →
        (responses 0).status ≠ 503 →
        search_issues responses jql fields expand s m (fuel + 1) =
          ⟨[mkParams jql fields expand s m], [],
           some (.error (responses 0).status)⟩)
    ∧ (∀ (responses : Nat → HttpResp) (jql : String) (fields : List String)
        (expand : Option String) (s m fuel : Nat),
        200 ≤ (responses 0).status → (responses 0).status < 300 →
        search_issues responses jql fields expand s m (fuel + 1) =
          ⟨[mkParams jql fields expand s m], [],
           some (.ok (responses 0).body)⟩) := by
  refine ⟨?_, ?_, ?_, ?_, ?_⟩
  · simp [search_issues, searchLoop, resp429]
  · simp [search_issues, searchLoop, resp503x2]
    norm_num
  · simp [search_issues, searchLoop, resp503x7]
    norm_num
  · intro responses jql fields expand s m fuel h400 h429 h503
    simp only [search_issues, searchLoop]
    have hcond : ¬((responses 0).status = 429 ∨ (responses 0).status = 503) := by
      rintro (h | h)
      · exact h429 h
      · exact h503 h
    rw [if_neg hcond]
    have hnot2xx : ¬(200 ≤ (responses 0).status ∧ (responses 0).status < 300) := by
      omega
    rw [if_neg hnot2xx]
    simp
  · intro responses jql fields expand s m fuel h200 h300
    simp only [search_issues, searchLoop]
    have hcond : ¬((responses 0).status = 429 ∨ (responses 0).status = 503) := by
      rintro (h | h) <;> omega
    rw [if_neg hcond]
    rw [if_pos ⟨h200, h300⟩]
    simp

/-- Witness for C4's conditional conjuncts: a 404 response raises with
status 404 after a single request and no sleep; a 200 response returns
its body after a single request. -/
theorem search_issues_retry_backoff_witness :
    (search_issues resp404 "project = ABC" ["status"] none 0 100 3 =
      ⟨[mkParams "project = ABC" ["status"] none 0 100], [],
       some (.error 404)⟩)
    ∧ (search_issues respOk "project = ABC" ["status"] none 0 100 3 =
      ⟨[mkParams "project = ABC" ["status"] none 0 100], [],
       some (.ok okBody)⟩) :=
  ⟨search_issues_retry_backoff.2.2.2.1 resp404 "project = ABC" ["status"]
     none 0 100 2 (by decide) (by decide) (by decide),
   search_issues_retry_backoff.2.2.2.2 respOk "project = ABC" ["status"]
     none 0 100 2 (by decide) (by decide)⟩
